import Mathlib

/-!
Shallow embedding of the cc-compiler session coordinator
(source file: src/lib/Compiler.ts).

The embedding models:
  * the constructor parameter validation and field initialisation,
  * the docker argument list built by exec,
  * the step sequencer driven by pty output chunks (the onData handler
    together with its debounce timers, modelled as pending-timer events),
  * the 500 ms lifecycle monitor callback (the checkInterval probe).

JavaScript values that matter to the validation (truthiness, typeof) are
modelled by the JSVal type. Machine-level details that the claims do not
touch (actual process spawning, wall-clock time) are represented as
actions and event interleavings.
-/

namespace CCCompiler

/-- JS substring search over char lists: true when pat occurs in the list. -/
def subAt (pat : List Char) : List Char → Bool
  | [] => pat.isEmpty
  | c :: cs => pat.isPrefixOf (c :: cs) || subAt pat cs

/-- JS `s.includes(pat)` / `s.indexOf(pat) > -1`: substring containment. -/
def strHasSub (s pat : String) : Bool := subAt pat.data s.data

/-- Replace the first occurrence of pat by rep (JS `String.prototype.replace`
with a string pattern replaces only the first occurrence). -/
def replaceFirstAux (pat rep : List Char) : List Char → List Char
  | [] => if pat.isEmpty then rep else []
  | c :: cs =>
    if pat.isPrefixOf (c :: cs) then rep ++ (c :: cs).drop pat.length
    else c :: replaceFirstAux pat rep cs

/-- JS `s.replace(pat, rep)` for a string pattern: first occurrence only. -/
def jsReplaceFirst (s pat rep : String) : String :=
  String.mk (replaceFirstAux pat.data rep.data s.data)

/-- A JavaScript value as far as the constructor checks inspect it:
a number, a string, or any other value together with its truthiness. -/
inductive JSVal where
  | num (n : Int)
  | str (s : String)
  | other (truthy : Bool)
deriving DecidableEq, Repr

/-- JS truthiness of a possibly-absent value (`undefined` is falsy,
`0` and the empty string are falsy). -/
def jsTruthy : Option JSVal → Bool
  | none => false
  | some (.num n) => n != 0
  | some (.str s) => s != ""
  | some (.other t) => t

/-- JS `typeof v === "number"`. -/
def jsTypeofNumber : Option JSVal → Bool
  | some (.num _) => true
  | _ => false

/-- JS `typeof v === "string"`. -/
def jsTypeofString : Option JSVal → Bool
  | some (.str _) => true
  | _ => false

/-- JS strict comparison `v === 0`. -/
def jsStrictEqZero : Option JSVal → Bool
  | some (.num n) => n == 0
  | _ => false

/-- The options object passed to the constructor. Each required field may be
absent (undefined) or hold any JS value; folderName is either absent or a
string, as in the declared CompilerOptions type. -/
structure CompilerOptions where
  langNum : Option JSVal
  mainFile : Option JSVal
  pathToFiles : Option JSVal
  containerName : Option JSVal
  folderName : Option String
deriving DecidableEq, Repr

/-- The state a successfully constructed Compiler instance holds:
the validated option fields (this.opts) plus the defaulted
this.folderName computed by `opts.folderName || "code"`. -/
structure CompilerInst where
  langNum : Int
  mainFile : String
  pathToFiles : String
  containerName : String
  optsFolderName : Option String
  folderName : String
deriving DecidableEq, Repr

/-- Payload extraction, only used after the typeof guards have passed. -/
def getNum : Option JSVal → Int
  | some (.num n) => n
  | _ => 0

/-- Payload extraction, only used after the typeof guards have passed. -/
def getStr : Option JSVal → String
  | some (.str s) => s
  | _ => ""

/-- The constructor of Compiler (lines 30-41): the four parameter checks in
source order, each throwing a message naming the field, then the
assignments `this.opts = opts` and `this.folderName = opts.folderName || "code"`.
The constructor is a pure function here: it spawns no process (spawn and
exec only occur inside the exec method). -/
def mkCompiler (opts : CompilerOptions) : Except String CompilerInst :=
  if (!jsTruthy opts.langNum && !jsStrictEqZero opts.langNum) || !jsTypeofNumber opts.langNum then
    .error "Required param \x27langNum\x27 missing or invalid."
  else if !jsTruthy opts.mainFile || !jsTypeofString opts.mainFile then
    .error "Required param \x27mainFile\x27 missing or invalid."
  else if !jsTruthy opts.pathToFiles || !jsTypeofString opts.pathToFiles then
    .error "Required param \x27pathToFiles\x27 missing or invalid."
  else if !jsTruthy opts.containerName || !jsTypeofString opts.containerName then
    .error "Required param \x27containerName\x27 missing or invalid."
  else
    .ok { langNum := getNum opts.langNum
          mainFile := getStr opts.mainFile
          pathToFiles := getStr opts.pathToFiles
          containerName := getStr opts.containerName
          optsFolderName := opts.folderName
          folderName := match opts.folderName with
                        | some s => if s = "" then "code" else s
                        | none => "code" }

/-- JS template-string interpolation of a possibly-undefined string value:
`${undefined}` renders as "undefined". -/
def jsTemplateStr : Option String → String
  | some s => s
  | none => "undefined"

/-- The docker run argument list built in exec (lines 52-53). The mount and
workdir interpolate `this.opts.folderName` (NOT the defaulted
`this.folderName`). -/
def dockerArgs (c : CompilerInst) : List String :=
  ["run", "--rm", "--name", c.containerName, "-e", "TERM=xterm-256color",
   "--cpus=0.25", "--memory=200m",
   "-itv", c.pathToFiles ++ ":/usercode/" ++ jsTemplateStr c.optsFolderName,
   "--workdir", "/usercode/" ++ jsTemplateStr c.optsFolderName,
   "cc-compiler", "/bin/bash"]

/-! ## Step sequencer (exec, lines 58-99) -/

/-- The prompt marker configured into the sandboxed shell
(line 63: `let arrow = "\u001b[1;3;31m>> \u001b[0m"`). -/
def arrowStr : String := "\x1b[1;3;31m>> \x1b[0m"

/-- JS `s.split(".")` over the char list: split at every dot, keeping empty
parts, as `String.prototype.split` with a one-char separator does. -/
def splitOnChar (sep : Char) : List Char → List (List Char)
  | [] => [[]]
  | c :: cs =>
    match splitOnChar sep cs with
    | [] => [[]]
    | h :: t => if c = sep then [] :: h :: t else (c :: h) :: t

/-- JS `parts.join(".")`. -/
def joinWithDot : List (List Char) → List Char
  | [] => []
  | [x] => x
  | x :: xs => x ++ '.' :: joinWithDot xs

/-- Lines 59-60: `let _ = mainFile.split("."); _.pop(); fileWithoutExt = _.join(".")`. -/
def fileWithoutExt (mainFile : String) : String :=
  String.mk (joinWithDot ((splitOnChar '.' mainFile.data).dropLast))

/-- A catalog entry from the external language list: the first command and
the optional second command template. -/
structure RunnerEntry where
  cmd1 : String
  cmd2 : Option String
deriving DecidableEq, Repr

/-- Line 64: ``step1 = `${runner[0]} ${this.opts.mainFile}\r` ``. -/
def mkStep1 (r : RunnerEntry) (mainFile : String) : String :=
  r.cmd1 ++ " " ++ mainFile ++ "\r"

/-- Line 65: ``step2 = runner[1] ? `${runner[1].replace("{}", fileWithoutExt)}\r` : ""``.
An absent or empty (falsy) second entry gives the empty string. -/
def mkStep2 (r : RunnerEntry) (fwe : String) : String :=
  match r.cmd2 with
  | some c => if c = "" then "" else jsReplaceFirst c "{}" fwe ++ "\r"
  | none => ""

/-- The three strings the onData handler closes over. -/
structure SeqCfg where
  arrow : String
  step1 : String
  step2 : String
deriving DecidableEq, Repr

/-- The sequencer configuration exec builds for a catalog entry and main file. -/
def mkSeqCfg (r : RunnerEntry) (mainFile : String) : SeqCfg :=
  { arrow := arrowStr
    step1 := mkStep1 r mainFile
    step2 := mkStep2 r (fileWithoutExt mainFile) }

/-- The two kinds of debounce timers exec schedules with setTimeout. -/
inductive TimerKind where
  | t1
  | t2
deriving DecidableEq, Repr

/-- The mutable closure state of exec: the three booleans declared on lines
66-68 plus the multiset of scheduled, not yet fired, debounce timers. -/
structure SeqState where
  sentStep1 : Bool
  sentStep2 : Bool
  receivedFinalArrow : Bool
  timers : List TimerKind
deriving DecidableEq, Repr

/-- Initial closure state (lines 66-68): `sentStep1 = false`,
`sentStep2 = !step2` (true when there is no step2 command),
`receivedFinalArrow = false`; no timer pending. -/
def initSeqState (cfg : SeqCfg) : SeqState :=
  { sentStep1 := false
    sentStep2 := cfg.step2 == ""
    receivedFinalArrow := false
    timers := [] }

/-- Observable actions of the sequencer: the inc event emitted for every
chunk, a write to the pty, and the docker rm fast path of rule 1. -/
inductive SeqAct where
  | inc (out : String)
  | write (text : String)
  | removeContainer
deriving DecidableEq, Repr

/-- Line 97: `String.fromCharCode(127)`, the DEL / backspace-equivalent. -/
def delStr : String := "\x7f"

/-- The onData handler (lines 72-99), one output chunk: emit inc, then the
four guarded returns in source order. Scheduling a setTimeout is modelled
by appending a pending timer. -/
def onData (cfg : SeqCfg) (s : SeqState) (e : String) : SeqState × List SeqAct :=
  if strHasSub e cfg.arrow && s.sentStep1 && s.sentStep2 then
    (s, [.inc e, .removeContainer])
  else if !s.sentStep1 && e == cfg.arrow then
    ({ s with timers := s.timers ++ [.t1] }, [.inc e])
  else if !s.sentStep2 && s.sentStep1 && strHasSub e cfg.arrow then
    ({ s with timers := s.timers ++ [.t2] }, [.inc e])
  else if (!s.sentStep2 && s.sentStep1 && !strHasSub e cfg.arrow) || s.receivedFinalArrow then
    (s, [.inc e, .write delStr])
  else
    (s, [.inc e])

/-- A pending setTimeout callback fires: re-check the sent flag at fire
time (lines 81, 89), then set it and write the step. -/
def fireTimer (cfg : SeqCfg) (s : SeqState) : TimerKind → SeqState × List SeqAct
  | .t1 =>
    if s.sentStep1 then (s, [])
    else ({ s with sentStep1 := true }, [.write cfg.step1])
  | .t2 =>
    if s.sentStep2 then (s, [])
    else ({ s with sentStep2 := true }, [.write cfg.step2])

/-- Events the single-threaded event loop may deliver: a pty output chunk,
or the firing of the i-th pending timer. -/
inductive SeqEv where
  | chunk (e : String)
  | fire (i : Nat)
deriving DecidableEq, Repr

/-- One event-loop step. Firing removes the timer from the pending list. -/
def seqStep (cfg : SeqCfg) (s : SeqState) : SeqEv → SeqState × List SeqAct
  | .chunk e => onData cfg s e
  | .fire i =>
    match s.timers[i]? with
    | some k => fireTimer cfg { s with timers := s.timers.eraseIdx i } k
    | none => (s, [])

/-- The pty writes among a list of actions. -/
def writesOf (acts : List SeqAct) : List String :=
  acts.filterMap fun a =>
    match a with
    | .write t => some t
    | _ => none

/-- Run a list of events; alongside the final state, record every pty write
together with the value of sentStep1 at the moment of the write (the flag
assignments on lines 82 and 90 precede the corresponding write calls, so
the post-state flag is the flag value at write time). -/
def seqRun (cfg : SeqCfg) (s : SeqState) : List SeqEv → SeqState × List (Bool × String)
  | [] => (s, [])
  | ev :: evs =>
    let p := seqStep cfg s ev
    let rest := seqRun cfg p.1 evs
    (rest.1, (writesOf p.2).map (fun t => (p.1.sentStep1, t)) ++ rest.2)

/-! ## Lifecycle monitor (exec, lines 101-121) -/

/-- The monitor closure state: `isLaunched`, `sentDone` (lines 101-102) and
whether the 500 ms polling interval is still active (cleared by _cleanUp,
line 145). -/
structure MonState where
  isLaunched : Bool
  sentDone : Bool
  intervalActive : Bool
deriving DecidableEq, Repr

/-- Events the monitor emits. -/
inductive MonEv where
  | launched
  | done (out : String) (timedOut : Bool)
deriving DecidableEq, Repr

/-- One probe callback (lines 106-120): `out` is the output of
`docker ps | grep containerName`. First the launch branch (line 109), then
`timedOut = out.indexOf("minute") > -1` and the completion branch
(lines 112-119), which emits done with `{ out: "", timedOut }`, sets
sentDone and runs _cleanUp (modelled by clearing intervalActive). -/
def monitorStep (s : MonState) (out : String) : MonState × List MonEv :=
  if out != "" && !s.isLaunched then
    ({ s with isLaunched := true }, [.launched])
  else
    let timedOut := strHasSub out "minute"
    if ((out == "" && s.isLaunched) || timedOut) && !s.sentDone then
      ({ s with sentDone := true, intervalActive := false }, [.done "" timedOut])
    else (s, [])

/-- Fold a sequence of probe outputs through the monitor. -/
def runMonitorAux (s : MonState) : List String → MonState × List MonEv
  | [] => (s, [])
  | out :: outs =>
    let p := monitorStep s out
    let rest := runMonitorAux p.1 outs
    (rest.1, p.2 ++ rest.2)

/-- Monitor state when exec installs the interval (lines 101-104). -/
def initMonState : MonState :=
  { isLaunched := false, sentDone := false, intervalActive := true }

/-- A whole monitored session: probes from the initial state. -/
def runMonitor (outs : List String) : MonState × List MonEv :=
  runMonitorAux initMonState outs

/-- Number of done events in a list. -/
def doneCount (evs : List MonEv) : Nat :=
  (evs.filter fun ev =>
    match ev with
    | .done _ _ => true
    | _ => false).length

/-- Number of launched events in a list. -/
def launchedCount (evs : List MonEv) : Nat :=
  (evs.filter fun ev =>
    match ev with
    | .launched => true
    | _ => false).length

/-- True when the event is not a done event with a non-empty out payload. -/
def doneOutEmpty : MonEv → Bool
  | .done o _ => o == ""
  | .launched => true

/-- The probe command pipes docker ps through `grep containerName`: of the
process-listing lines, keep those containing the name. -/
def grepOut (name : String) (psLines : List String) : String :=
  String.intercalate "\n" (psLines.filter fun l => strHasSub l name)

/-! ## Concrete instances used by the claims -/

/-- Inductive invariant of the sequencer state, holding from the initial
state on: the final-arrow flag stays false, a pending step2 timer implies
step1 is recorded sent, and (when a step2 command exists) sentStep2
implies sentStep1. -/
def SeqInv (cfg : SeqCfg) (s : SeqState) : Prop :=
  s.receivedFinalArrow = false
  ∧ (TimerKind.t2 ∈ s.timers → s.sentStep1 = true)
  ∧ (cfg.step2 ≠ "" → s.sentStep2 = true → s.sentStep1 = true)

/-- The catalog entry stipulated by the C language scenario. -/
def gccEntry : RunnerEntry := { cmd1 := "gcc main.c -o main", cmd2 := some "./{}" }

/-- Sequencer configuration for the gcc entry with main file main.c. -/
def cfgGcc : SeqCfg := mkSeqCfg gccEntry "main.c"

/-- The reachable state after the first prompt chunk and the firing of the
step1 debounce timer: step1 recorded sent, step2 not yet. -/
def sWin : SeqState :=
  (seqRun cfgGcc (initSeqState cfgGcc) [.chunk arrowStr, .fire 0]).1

/-- The reachable state after both steps were delivered. -/
def sBoth : SeqState :=
  (seqRun cfgGcc (initSeqState cfgGcc)
    [.chunk arrowStr, .fire 0, .chunk arrowStr, .fire 0]).1

/-- A valid options object with the folder name omitted. -/
def optsNoFolder : CompilerOptions :=
  { langNum := some (.num 0)
    mainFile := some (.str "main.c")
    pathToFiles := some (.str "/tmp/code")
    containerName := some (.str "box1")
    folderName := none }

/-- The same options with a folder name supplied. -/
def optsWithFolder : CompilerOptions :=
  { optsNoFolder with folderName := some "mydir" }

/-! ## Helper lemmas: sequencer -/

theorem mem_of_idx {α : Type _} {l : List α} {i : Nat} {a : α}
    (h : l[i]? = some a) : a ∈ l := by
  obtain ⟨hlt, he⟩ := List.getElem?_eq_some.mp h
  exact he ▸ List.getElem_mem hlt

theorem mem_of_eraseIdx {α : Type _} {l : List α} {i : Nat} {a : α}
    (h : a ∈ l.eraseIdx i) : a ∈ l :=
  (List.eraseIdx_sublist l i).mem h

theorem seqStep_sentStep1_mono (cfg : SeqCfg) (s : SeqState) (ev : SeqEv)
    (h : s.sentStep1 = true) : (seqStep cfg s ev).1.sentStep1 = true := by
  cases ev with
  | chunk e =>
    simp only [seqStep, onData]
    repeat' split
    all_goals simp_all
  | fire i =>
    simp only [seqStep]
    cases hk : s.timers[i]? with
    | none => simpa using h
    | some k =>
      cases k <;> simp only [fireTimer] <;> split <;> simp_all

theorem seqStep_sentStep2_mono (cfg : SeqCfg) (s : SeqState) (ev : SeqEv)
    (h : s.sentStep2 = true) : (seqStep cfg s ev).1.sentStep2 = true := by
  cases ev with
  | chunk e =>
    simp only [seqStep, onData]
    repeat' split
    all_goals simp_all
  | fire i =>
    simp only [seqStep]
    cases hk : s.timers[i]? with
    | none => simpa using h
    | some k =>
      cases k <;> simp only [fireTimer] <;> split <;> simp_all

theorem seqStep_rfa (cfg : SeqCfg) (s : SeqState) (ev : SeqEv) :
    (seqStep cfg s ev).1.receivedFinalArrow = s.receivedFinalArrow := by
  cases ev with
  | chunk e =>
    simp only [seqStep, onData]
    repeat' split
    all_goals simp_all
  | fire i =>
    simp only [seqStep]
    cases hk : s.timers[i]? with
    | none => simp
    | some k =>
      cases k <;> simp only [fireTimer] <;> split <;> simp_all

theorem seqRun_sentStep1_mono (cfg : SeqCfg) (s : SeqState) (evs : List SeqEv)
    (h : s.sentStep1 = true) : (seqRun cfg s evs).1.sentStep1 = true := by
  induction evs generalizing s with
  | nil => simpa [seqRun] using h
  | cons ev evs ih =>
    simp only [seqRun]
    exact ih _ (seqStep_sentStep1_mono cfg s ev h)

theorem seqRun_sentStep2_mono (cfg : SeqCfg) (s : SeqState) (evs : List SeqEv)
    (h : s.sentStep2 = true) : (seqRun cfg s evs).1.sentStep2 = true := by
  induction evs generalizing s with
  | nil => simpa [seqRun] using h
  | cons ev evs ih =>
    simp only [seqRun]
    exact ih _ (seqStep_sentStep2_mono cfg s ev h)

theorem seqRun_rfa (cfg : SeqCfg) (s : SeqState) (evs : List SeqEv) :
    (seqRun cfg s evs).1.receivedFinalArrow = s.receivedFinalArrow := by
  induction evs generalizing s with
  | nil => simp [seqRun]
  | cons ev evs ih =>
    simp only [seqRun]
    rw [ih, seqStep_rfa]

theorem seqInv_init (cfg : SeqCfg) : SeqInv cfg (initSeqState cfg) := by
  refine ⟨rfl, ?_, ?_⟩
  · intro h
    simp [initSeqState] at h
  · intro hne h
    simp only [initSeqState] at h
    exact absurd (beq_iff_eq.mp h) hne

theorem seqStep_inv (cfg : SeqCfg) (s : SeqState) (ev : SeqEv) (h : SeqInv cfg s) :
    SeqInv cfg (seqStep cfg s ev).1 := by
  obtain ⟨h1, h2, h3⟩ := h
  cases ev with
  | chunk e =>
    simp only [seqStep, onData]
    repeat' split
    all_goals refine ⟨by simp_all, ?_, by simp_all⟩
    all_goals simp_all [SeqInv, List.mem_append]
  | fire i =>
    simp only [seqStep]
    cases hk : s.timers[i]? with
    | none => exact ⟨h1, h2, h3⟩
    | some k =>
      cases k with
      | t1 =>
        simp only [fireTimer]
        split
        · exact ⟨h1, fun hm => h2 (mem_of_eraseIdx hm), h3⟩
        · exact ⟨h1, fun _ => rfl, fun _ _ => rfl⟩
      | t2 =>
        simp only [fireTimer]
        split
        · refine ⟨h1, fun hm => h2 (mem_of_eraseIdx hm), fun hne h2' => ?_⟩
          exact h3 hne h2'
        · refine ⟨h1, fun hm => h2 (mem_of_eraseIdx hm), fun _ _ => ?_⟩
          exact h2 (mem_of_idx hk)

theorem seqStep_write_flag (cfg : SeqCfg) (s : SeqState) (ev : SeqEv) (h : SeqInv cfg s) :
    ∀ t ∈ writesOf (seqStep cfg s ev).2, (seqStep cfg s ev).1.sentStep1 = true := by
  obtain ⟨h1, h2, h3⟩ := h
  cases ev with
  | chunk e =>
    simp only [seqStep, onData]
    repeat' split
    all_goals intro t ht
    all_goals simp_all [writesOf]
  | fire i =>
    simp only [seqStep]
    cases hk : s.timers[i]? with
    | none => intro t ht; simp [writesOf] at ht
    | some k =>
      cases k with
      | t1 =>
        simp only [fireTimer]
        split
        · intro t ht; simp [writesOf] at ht
        · intro t ht; rfl
      | t2 =>
        simp only [fireTimer]
        split
        · intro t ht; simp [writesOf] at ht
        · intro t ht
          exact h2 (mem_of_idx hk)

theorem seqRun_write_flag (cfg : SeqCfg) (s : SeqState) (evs : List SeqEv) (h : SeqInv cfg s) :
    ∀ p ∈ (seqRun cfg s evs).2, p.1 = true := by
  induction evs generalizing s with
  | nil => simp [seqRun]
  | cons ev evs ih =>
    intro p hp
    simp only [seqRun, List.mem_append] at hp
    rcases hp with hp | hp
    · obtain ⟨t, ht, rfl⟩ := List.mem_map.mp hp
      exact seqStep_write_flag cfg s ev ⟨h.1, h.2.1, h.2.2⟩ t ht
    · exact ih _ (seqStep_inv cfg s ev ⟨h.1, h.2.1, h.2.2⟩) p hp

theorem seqRun_inv (cfg : SeqCfg) (s : SeqState) (evs : List SeqEv) (h : SeqInv cfg s) :
    SeqInv cfg (seqRun cfg s evs).1 := by
  induction evs generalizing s with
  | nil => exact h
  | cons ev evs ih =>
    exact ih _ (seqStep_inv cfg s ev h)

/-! ## Helper lemmas: lifecycle monitor -/

theorem doneCount_append (a b : List MonEv) :
    doneCount (a ++ b) = doneCount a + doneCount b := by
  simp [doneCount, List.filter_append]

theorem launchedCount_append (a b : List MonEv) :
    launchedCount (a ++ b) = launchedCount a + launchedCount b := by
  simp [launchedCount, List.filter_append]

/-- Each probe produces no event, a single launched event, or a single done
event; the latter only from a state with sentDone still false, and it sets
sentDone. Non-done steps leave sentDone unchanged. -/
theorem monitorStep_cases (s : MonState) (out : String) :
    ((monitorStep s out).2 = [] ∧ (monitorStep s out).1.sentDone = s.sentDone)
    ∨ ((monitorStep s out).2 = [.launched] ∧ (monitorStep s out).1.sentDone = s.sentDone)
    ∨ ((monitorStep s out).2 = [.done "" (strHasSub out "minute")]
        ∧ s.sentDone = false ∧ (monitorStep s out).1.sentDone = true) := by
  simp only [monitorStep]
  split
  · right; left; exact ⟨rfl, rfl⟩
  · split
    · rename_i hg
      right; right
      refine ⟨rfl, ?_, rfl⟩
      simp only [Bool.and_eq_true, Bool.not_eq_true'] at hg
      exact hg.2
    · left; exact ⟨rfl, rfl⟩

theorem monitorStep_sentDone_mono (s : MonState) (out : String)
    (h : s.sentDone = true) : (monitorStep s out).1.sentDone = true := by
  rcases monitorStep_cases s out with ⟨_, he⟩ | ⟨_, he⟩ | ⟨_, hf, _⟩
  · rw [he, h]
  · rw [he, h]
  · rw [hf] at h; cases h

theorem monitorStep_isLaunched_mono (s : MonState) (out : String)
    (h : s.isLaunched = true) : (monitorStep s out).1.isLaunched = true := by
  simp only [monitorStep]
  split
  · rfl
  · split <;> simpa using h

theorem monitorStep_launch (s : MonState) (out : String) (h : out ≠ "") :
    (monitorStep s out).1.isLaunched = true := by
  simp only [monitorStep]
  split
  · rfl
  · rename_i hg
    simp only [Bool.and_eq_true, Bool.not_eq_true', bne_iff_ne] at hg
    have hL : s.isLaunched = true := by
      by_contra hc
      exact hg ⟨h, Bool.not_eq_true _ ▸ (Bool.eq_false_iff.mpr hc)⟩
    split <;> simpa using hL

/-- After sentDone is set, no further probe emits a done event. -/
theorem runMonitorAux_after_done (s : MonState) (outs : List String)
    (h : s.sentDone = true) :
    (runMonitorAux s outs).1.sentDone = true
    ∧ doneCount (runMonitorAux s outs).2 = 0 := by
  induction outs generalizing s with
  | nil => exact ⟨h, rfl⟩
  | cons out outs ih =>
    simp only [runMonitorAux, doneCount_append]
    have hm := monitorStep_sentDone_mono s out h
    have hr := ih _ hm
    refine ⟨hr.1, ?_⟩
    rcases monitorStep_cases s out with ⟨he, _⟩ | ⟨he, _⟩ | ⟨_, hf, _⟩
    · rw [he, hr.2]
      rfl
    · rw [he, hr.2]
      rfl
    · rw [hf] at h; cases h

theorem runMonitorAux_isLaunched_mono (s : MonState) (outs : List String)
    (h : s.isLaunched = true) : (runMonitorAux s outs).1.isLaunched = true := by
  induction outs generalizing s with
  | nil => exact h
  | cons out outs ih =>
    exact ih _ (monitorStep_isLaunched_mono s out h)

theorem runMonitorAux_doneCount_le_one (s : MonState) (outs : List String) :
    doneCount (runMonitorAux s outs).2 ≤ 1 := by
  induction outs generalizing s with
  | nil => simp [runMonitorAux, doneCount]
  | cons out outs ih =>
    simp only [runMonitorAux, doneCount_append]
    rcases monitorStep_cases s out with ⟨he, _⟩ | ⟨he, _⟩ | ⟨he, _, hd⟩
    · rw [he]
      have h0 : doneCount ([] : List MonEv) = 0 := rfl
      rw [h0]
      simpa using ih (monitorStep s out).1
    · rw [he]
      have h0 : doneCount [MonEv.launched] = 0 := rfl
      rw [h0]
      simpa using ih (monitorStep s out).1
    · have h0 := (runMonitorAux_after_done (monitorStep s out).1 outs hd).2
      rw [he, h0]
      simp [doneCount]

theorem runMonitorAux_doneCount_of_sentDone (s : MonState) (outs : List String)
    (h : s.sentDone = false) (hf : (runMonitorAux s outs).1.sentDone = true) :
    1 ≤ doneCount (runMonitorAux s outs).2 := by
  induction outs generalizing s with
  | nil =>
    simp only [runMonitorAux] at hf
    rw [h] at hf; cases hf
  | cons out outs ih =>
    simp only [runMonitorAux, doneCount_append] at hf ⊢
    rcases monitorStep_cases s out with ⟨he, hd⟩ | ⟨he, hd⟩ | ⟨he, _, _⟩
    · have := ih (monitorStep s out).1 (hd.trans h) hf
      omega
    · have := ih (monitorStep s out).1 (hd.trans h) hf
      omega
    · simp [he, doneCount]

/-- From a launched, not yet done state, a probe that is empty or mentions
"minute" drives sentDone true by the end of the remaining run. -/
theorem runMonitorAux_progress (s : MonState) (b : String) (l : List String)
    (hL : s.isLaunched = true) (hb : b = "" ∨ strHasSub b "minute" = true) :
    (runMonitorAux s (b :: l)).1.sentDone = true := by
  simp only [runMonitorAux]
  cases hsd : s.sentDone with
  | true => exact (runMonitorAux_after_done _ l (monitorStep_sentDone_mono s b hsd)).1
  | false =>
    have hstep : (monitorStep s b).1.sentDone = true := by
      simp only [monitorStep]
      split
      · rename_i hg
        simp only [Bool.and_eq_true, Bool.not_eq_true', bne_iff_ne] at hg
        rw [hg.2] at hL; cases hL
      · split
        · rfl
        · rename_i hg
          exfalso
          apply hg
          simp only [Bool.and_eq_true, Bool.or_eq_true, Bool.not_eq_true']
          refine ⟨?_, hsd⟩
          rcases hb with hb | hb
          · left; exact ⟨by simp [hb], hL⟩
          · right; exact hb
    exact (runMonitorAux_after_done _ l hstep).1

theorem runMonitorAux_append (s : MonState) (xs ys : List String) :
    runMonitorAux s (xs ++ ys)
      = ((runMonitorAux (runMonitorAux s xs).1 ys).1,
         (runMonitorAux s xs).2 ++ (runMonitorAux (runMonitorAux s xs).1 ys).2) := by
  induction xs generalizing s with
  | nil => simp [runMonitorAux]
  | cons x xs ih =>
    simp only [List.cons_append, runMonitorAux]
    rw [show xs.append ys = xs ++ ys from rfl, ih]
    simp [List.append_assoc]

theorem monitorStep_no_launch (s : MonState) (out : String)
    (h : s.isLaunched = true) : launchedCount (monitorStep s out).2 = 0 := by
  simp only [monitorStep]
  split
  · rename_i hg
    simp only [Bool.and_eq_true, Bool.not_eq_true'] at hg
    rw [hg.2] at h; cases h
  · split <;> rfl

theorem runMonitorAux_no_launch (s : MonState) (outs : List String)
    (h : s.isLaunched = true) : launchedCount (runMonitorAux s outs).2 = 0 := by
  induction outs generalizing s with
  | nil => rfl
  | cons out outs ih =>
    simp only [runMonitorAux, launchedCount_append]
    rw [monitorStep_no_launch s out h, ih _ (monitorStep_isLaunched_mono s out h)]

theorem runMonitorAux_launchedCount_le_one (s : MonState) (outs : List String) :
    launchedCount (runMonitorAux s outs).2 ≤ 1 := by
  induction outs generalizing s with
  | nil => simp [runMonitorAux, launchedCount]
  | cons out outs ih =>
    simp only [runMonitorAux, launchedCount_append]
    cases hL : s.isLaunched with
    | true =>
      rw [monitorStep_no_launch s out hL,
          runMonitorAux_no_launch _ outs (monitorStep_isLaunched_mono s out hL)]
      omega
    | false =>
      by_cases hout : out = ""
      · subst hout
        have he : monitorStep s "" = (s, []) := by
          simp only [monitorStep]
          have h1 : (("" : String) != "") = false := by decide
          have h2 : strHasSub "" "minute" = false := by decide
          simp [h1, h2, hL]
        rw [he]
        have h0 : launchedCount ([] : List MonEv) = 0 := rfl
        rw [h0]
        simpa using ih s
      · have hpost := monitorStep_launch s out hout
        have h0 := runMonitorAux_no_launch (monitorStep s out).1 outs hpost
        rw [h0]
        have : launchedCount (monitorStep s out).2 ≤ 1 := by
          rcases monitorStep_cases s out with ⟨he, _⟩ | ⟨he, _⟩ | ⟨he, _, _⟩ <;>
            rw [he] <;> simp [launchedCount]
        omega

theorem monitorStep_doneOutEmpty (s : MonState) (out : String) :
    ((monitorStep s out).2.all doneOutEmpty) = true := by
  rcases monitorStep_cases s out with ⟨he, _⟩ | ⟨he, _⟩ | ⟨he, _, _⟩ <;>
    rw [he] <;> rfl

theorem runMonitorAux_doneOutEmpty (s : MonState) (outs : List String) :
    ((runMonitorAux s outs).2.all doneOutEmpty) = true := by
  induction outs generalizing s with
  | nil => rfl
  | cons out outs ih =>
    simp only [runMonitorAux, List.all_append, Bool.and_eq_true]
    exact ⟨monitorStep_doneOutEmpty s out, ih (monitorStep s out).1⟩

theorem grepOut_empty (name : String) (lines : List String)
    (h : ∀ l ∈ lines, strHasSub l name = false) : grepOut name lines = "" := by
  unfold grepOut
  rw [List.filter_eq_nil_iff.mpr (fun l hl => by rw [h l hl]; exact Bool.false_ne_true)]
  rfl

/-! ## Helper lemmas: constructor validation -/

theorem langNum_guard_false (v : Option JSVal) (h : jsTypeofNumber v = true) :
    ((!jsTruthy v && !jsStrictEqZero v) || !jsTypeofNumber v) = false := by
  cases v with
  | none => simp [jsTypeofNumber] at h
  | some w =>
    cases w with
    | num n =>
      simp only [jsTruthy, jsStrictEqZero, jsTypeofNumber, Bool.not_true, Bool.or_false]
      by_cases hz : n = 0 <;> simp [hz]
    | str s => simp [jsTypeofNumber] at h
    | other t => simp [jsTypeofNumber] at h

theorem str_guard_false (v : Option JSVal) (ht : jsTruthy v = true)
    (hs : jsTypeofString v = true) :
    (!jsTruthy v || !jsTypeofString v) = false := by
  simp [ht, hs]

/-! ## Claim theorems -/

/-- C1: the claim states that an omitted folder name makes exec mount the
host path at /usercode/code with the working directory /usercode/code, as
the constructor documentation promises. The code instead interpolates
opts.folderName directly into the docker arguments, so an omitted folder
name yields /usercode/undefined for both the bind mount target and the
workdir, while the defaulted field this.folderName (which does hold the
value "code") is never consulted by exec. A supplied folder name does give
/usercode/mydir as claimed. -/
theorem C1_default_folder_mount_is_undefined :
    (∃ c, mkCompiler optsNoFolder = .ok c
      ∧ dockerArgs c
        = ["run", "--rm", "--name", "box1", "-e", "TERM=xterm-256color",
           "--cpus=0.25", "--memory=200m",
           "-itv", "/tmp/code:/usercode/undefined",
           "--workdir", "/usercode/undefined", "cc-compiler", "/bin/bash"]
      ∧ c.folderName = "code")
    ∧ (∃ c, mkCompiler optsWithFolder = .ok c
      ∧ dockerArgs c
        = ["run", "--rm", "--name", "box1", "-e", "TERM=xterm-256color",
           "--cpus=0.25", "--memory=200m",
           "-itv", "/tmp/code:/usercode/mydir",
           "--workdir", "/usercode/mydir", "cc-compiler", "/bin/bash"])
    ∧ ("/usercode/undefined" : String) ≠ "/usercode/code" := by
  refine ⟨⟨_, rfl, by decide, rfl⟩, ⟨_, rfl, by decide⟩, by decide⟩

/-- C2 (counterexample): with the stipulated catalog entry and main file
main.c, the first string written to the pty after the first prompt is the
entry command followed by a space and the main file name, not the bare
entry command the claim states. -/
theorem C2_counterexample :
    (seqRun cfgGcc (initSeqState cfgGcc) [.chunk arrowStr, .fire 0]).2
      = [(true, "gcc main.c -o main main.c\r")]
    ∧ ("gcc main.c -o main main.c\r" : String) ≠ "gcc main.c -o main\r" :=
  ⟨by decide, by decide⟩

/-- C2 (amended): for the stipulated catalog entry and main file main.c,
the sequencer writes exactly "gcc main.c -o main main.c\r" on the first
prompt and exactly "./main\r" (the template with its placeholder replaced
by the main file name stripped of the extension) on the second prompt. -/
theorem C2_amended_two_steps :
    cfgGcc.step1 = "gcc main.c -o main main.c\r"
    ∧ cfgGcc.step2 = "./main\r"
    ∧ (seqRun cfgGcc (initSeqState cfgGcc)
        [.chunk arrowStr, .fire 0, .chunk arrowStr, .fire 0]).2
      = [(true, "gcc main.c -o main main.c\r"), (true, "./main\r")] :=
  ⟨by decide, by decide, by decide⟩

/-- C3: the claim states that once rule 1 fires, a final-arrow flag is set
and every subsequent chunk causes a DEL write. In the code the variable
receivedFinalArrow is declared and consulted in the rule-4 guard but never
assigned: the first conjunct shows it stays false in every run from the
initial state; the second shows rule 1 firing on the reachable state with
both steps sent; the third shows the next chunk produces no write at all. -/
theorem C3_final_arrow_flag_never_set :
    (∀ (cfg : SeqCfg) (evs : List SeqEv),
      (seqRun cfg (initSeqState cfg) evs).1.receivedFinalArrow = false)
    ∧ (seqStep cfgGcc sBoth (.chunk arrowStr)).2 = [.inc arrowStr, .removeContainer]
    ∧ (seqStep cfgGcc sBoth (.chunk "x")).2 = [.inc "x"] := by
  refine ⟨?_, by decide, by decide⟩
  intro cfg evs
  rw [seqRun_rfa]
  rfl

/-- C4: on any trace of probe outputs containing a nonempty probe followed
later by an empty or "minute"-mentioning probe (every exit path makes the
container disappear or prints a ceiling message), the done event is emitted
exactly once; on every trace it is emitted at most once; and after the
sentDone flag is true, no further probe emits done. -/
theorem C4_done_exactly_once (l1 : List String) (a : String) (l2 : List String)
    (b : String) (l3 : List String) (ha : a ≠ "")
    (hb : b = "" ∨ strHasSub b "minute" = true) :
    doneCount (runMonitor (l1 ++ a :: l2 ++ b :: l3)).2 = 1
    ∧ (∀ outs : List String, doneCount (runMonitor outs).2 ≤ 1)
    ∧ (∀ (s : MonState) (outs : List String), s.sentDone = true →
      doneCount (runMonitorAux s outs).2 = 0) := by
  refine ⟨?_, fun outs => runMonitorAux_doneCount_le_one _ outs,
    fun s outs hs => (runMonitorAux_after_done s outs hs).2⟩
  have hXfst : (runMonitorAux initMonState (l1 ++ a :: l2)).1
      = (runMonitorAux (monitorStep (runMonitorAux initMonState l1).1 a).1 l2).1 := by
    rw [runMonitorAux_append]
    rfl
  have hL : (runMonitorAux initMonState (l1 ++ a :: l2)).1.isLaunched = true := by
    rw [hXfst]
    exact runMonitorAux_isLaunched_mono _ l2 (monitorStep_launch _ a ha)
  have hfin : (runMonitorAux initMonState ((l1 ++ a :: l2) ++ b :: l3)).1.sentDone = true := by
    rw [runMonitorAux_append]
    exact runMonitorAux_progress _ b l3 hL hb
  have hge := runMonitorAux_doneCount_of_sentDone initMonState
    ((l1 ++ a :: l2) ++ b :: l3) rfl hfin
  have hle := runMonitorAux_doneCount_le_one initMonState ((l1 ++ a :: l2) ++ b :: l3)
  unfold runMonitor
  omega

/-- C4 witness: a launch probe followed by a disappearance probe yields
exactly one done event. -/
theorem C4_witness : doneCount (runMonitor ["x", ""]).2 = 1 :=
  (C4_done_exactly_once [] "x" [] "" [] (by decide) (Or.inl rfl)).1

/-- C5: the step flags are monotonic under every event; when no step2
command exists sentStep2 is true from the start; when one exists, sentStep2
implies sentStep1 in every reachable state; and every pty write in every
run from the initial state happens with sentStep1 already recorded true, so
the step2 text is never written before step1 delivery is recorded. -/
theorem C5_flag_monotonic_and_order :
    (∀ (cfg : SeqCfg) (s : SeqState) (evs : List SeqEv), s.sentStep1 = true →
      (seqRun cfg s evs).1.sentStep1 = true)
    ∧ (∀ (cfg : SeqCfg) (s : SeqState) (evs : List SeqEv), s.sentStep2 = true →
      (seqRun cfg s evs).1.sentStep2 = true)
    ∧ (∀ cfg : SeqCfg, cfg.step2 = "" → (initSeqState cfg).sentStep2 = true)
    ∧ (∀ (cfg : SeqCfg) (evs : List SeqEv), cfg.step2 ≠ "" →
      (seqRun cfg (initSeqState cfg) evs).1.sentStep2 = true →
      (seqRun cfg (initSeqState cfg) evs).1.sentStep1 = true)
    ∧ (∀ (cfg : SeqCfg) (evs : List SeqEv),
      ∀ p ∈ (seqRun cfg (initSeqState cfg) evs).2, p.1 = true) := by
  refine ⟨seqRun_sentStep1_mono, seqRun_sentStep2_mono, ?_, ?_, ?_⟩
  · intro cfg h
    simp [initSeqState, h]
  · intro cfg evs hne h2
    exact (seqRun_inv cfg _ evs (seqInv_init cfg)).2.2 hne h2
  · intro cfg evs
    exact seqRun_write_flag cfg _ evs (seqInv_init cfg)

/-- C5 witness: a concrete two-prompt run of the gcc configuration
reaches sentStep1 true with step2 sent after step1. -/
theorem C5_witness :
    (seqRun cfgGcc (initSeqState cfgGcc)
      [.chunk arrowStr, .fire 0, .chunk arrowStr, .fire 0]).1.sentStep1 = true :=
  C5_flag_monotonic_and_order.2.2.2.1 cfgGcc
    [.chunk arrowStr, .fire 0, .chunk arrowStr, .fire 0] (by decide) (by decide)

/-- C6 (counterexample): in the window between step1 sent and step2 sent, a
chunk that is not itself the prompt marker but contains it produces no DEL
write at all; it schedules the step2 timer instead, refuting the claim for
such chunks. -/
theorem C6_counterexample :
    sWin.sentStep1 = true ∧ sWin.sentStep2 = false
    ∧ ("a\x1b[1;3;31m>> \x1b[0m" : String) ≠ cfgGcc.arrow
    ∧ writesOf (seqStep cfgGcc sWin (.chunk "a\x1b[1;3;31m>> \x1b[0m")).2 = []
    ∧ (seqStep cfgGcc sWin (.chunk "a\x1b[1;3;31m>> \x1b[0m")).1.timers = [.t2] := by
  refine ⟨by decide, by decide, by decide, by decide, by decide⟩

/-- C6 (amended): every chunk arriving while step1 is recorded sent and
step2 is not, that does not contain the prompt marker, produces exactly the
inc event plus a single DEL write and leaves the state unchanged, so the
chunk never acts as a command. -/
theorem C6_amended (cfg : SeqCfg) (s : SeqState) (e : String)
    (h1 : s.sentStep1 = true) (h2 : s.sentStep2 = false)
    (h3 : strHasSub e cfg.arrow = false) :
    seqStep cfg s (.chunk e) = (s, [.inc e, .write delStr]) := by
  simp [seqStep, onData, h1, h2, h3]

/-- C6 witness: a stray keystroke chunk in the window triggers the DEL
write. -/
theorem C6_witness :
    seqStep cfgGcc sWin (.chunk "oops") = (sWin, [.inc "oops", .write delStr]) :=
  C6_amended cfgGcc sWin "oops" (by decide) (by decide) (by decide)

/-- C7 (counterexample): a probe output containing "minute" that arrives
before the environment was ever observed running emits launched, not done,
refuting the unconditional minute clause of the claim. -/
theorem C7_counterexample :
    strHasSub "minute" "minute" = true
    ∧ monitorStep initMonState "minute"
      = ({ isLaunched := true, sentDone := false, intervalActive := true }, [.launched])
    ∧ doneCount (monitorStep initMonState "minute").2 = 0 := by
  refine ⟨by decide, by decide, by decide⟩

/-- C7 (amended): for a probe observed while isLaunched is true and done
was not yet emitted: when no process-listing line contains the environment
name (so the grep output is empty), that same probe emits done with
timedOut false and cancels the polling interval; when the probe output
contains "minute", that probe emits done with timedOut true. -/
theorem C7_amended (s : MonState) (hL : s.isLaunched = true) (hD : s.sentDone = false) :
    (∀ (name : String) (lines : List String),
      (∀ l ∈ lines, strHasSub l name = false) →
      monitorStep s (grepOut name lines)
        = ({ s with sentDone := true, intervalActive := false }, [.done "" false]))
    ∧ (∀ out : String, strHasSub out "minute" = true →
      monitorStep s out
        = ({ s with sentDone := true, intervalActive := false }, [.done "" true])) := by
  constructor
  · intro name lines h
    rw [grepOut_empty name lines h]
    simp only [monitorStep]
    have h1 : (("" : String) != "") = false := by decide
    have h2 : strHasSub "" "minute" = false := by decide
    have h3 : (("" : String) == "") = true := by decide
    simp [h1, h2, h3, hL, hD]
  · intro out h
    simp only [monitorStep]
    simp [hL, hD, h]

/-- C7 witness: a minute-mentioning probe in the launched, not yet done
state fires done with timedOut true. -/
theorem C7_witness :
    monitorStep { isLaunched := true, sentDone := false, intervalActive := true } "one minute"
      = ({ isLaunched := true, sentDone := true, intervalActive := false }, [.done "" true]) :=
  (C7_amended { isLaunched := true, sentDone := false, intervalActive := true }
    rfl rfl).2 "one minute" (by decide)

/-- C8: launched is emitted at most once on any probe trace; a probe with
empty output never emits launched; and once isLaunched is true no probe
emits launched again. -/
theorem C8_launched_at_most_once :
    (∀ outs : List String, launchedCount (runMonitor outs).2 ≤ 1)
    ∧ (∀ s : MonState, launchedCount (monitorStep s "").2 = 0)
    ∧ (∀ (s : MonState) (out : String), s.isLaunched = true →
      launchedCount (monitorStep s out).2 = 0) := by
  refine ⟨fun outs => runMonitorAux_launchedCount_le_one _ outs, ?_, monitorStep_no_launch⟩
  intro s
  have h1 : (("" : String) != "") = false := by decide
  simp only [monitorStep, h1, Bool.false_and]
  split
  · rename_i hcontr
    cases hcontr
  · split <;> rfl

/-- C8 witness: a second nonempty probe after launch emits no further
launched event. -/
theorem C8_witness :
    launchedCount (monitorStep
      { isLaunched := true, sentDone := false, intervalActive := true } "box1 up").2 = 0 :=
  C8_launched_at_most_once.2.2 _ "box1 up" rfl

/-- C9: each missing or mistyped required field makes construction fail with
the error naming that field, checked in source order; langNum equal to 0
together with non-empty strings for the other fields is accepted, yielding
the instance with folderName defaulted to "code". Construction is a pure
function of the options and starts no process. -/
theorem C9_construction_validation (o : CompilerOptions) :
    (jsTypeofNumber o.langNum = false →
      mkCompiler o = .error "Required param \x27langNum\x27 missing or invalid."
      ∧ strHasSub "Required param \x27langNum\x27 missing or invalid." "langNum" = true)
    ∧ (jsTypeofNumber o.langNum = true →
      (jsTruthy o.mainFile = false ∨ jsTypeofString o.mainFile = false) →
      mkCompiler o = .error "Required param \x27mainFile\x27 missing or invalid."
      ∧ strHasSub "Required param \x27mainFile\x27 missing or invalid." "mainFile" = true)
    ∧ (jsTypeofNumber o.langNum = true →
      jsTruthy o.mainFile = true → jsTypeofString o.mainFile = true →
      (jsTruthy o.pathToFiles = false ∨ jsTypeofString o.pathToFiles = false) →
      mkCompiler o = .error "Required param \x27pathToFiles\x27 missing or invalid."
      ∧ strHasSub "Required param \x27pathToFiles\x27 missing or invalid." "pathToFiles" = true)
    ∧ (jsTypeofNumber o.langNum = true →
      jsTruthy o.mainFile = true → jsTypeofString o.mainFile = true →
      jsTruthy o.pathToFiles = true → jsTypeofString o.pathToFiles = true →
      (jsTruthy o.containerName = false ∨ jsTypeofString o.containerName = false) →
      mkCompiler o = .error "Required param \x27containerName\x27 missing or invalid."
      ∧ strHasSub "Required param \x27containerName\x27 missing or invalid." "containerName" = true)
    ∧ (∀ (mf pf cn : String), mf ≠ "" → pf ≠ "" → cn ≠ "" →
      mkCompiler { langNum := some (.num 0), mainFile := some (.str mf),
                   pathToFiles := some (.str pf), containerName := some (.str cn),
                   folderName := none }
        = .ok { langNum := 0, mainFile := mf, pathToFiles := pf,
                containerName := cn, optsFolderName := none, folderName := "code" }) := by
  refine ⟨?_, ?_, ?_, ?_, ?_⟩
  · intro h
    refine ⟨?_, by decide⟩
    simp [mkCompiler, h]
  · intro hN hM
    refine ⟨?_, by decide⟩
    have hg := langNum_guard_false o.langNum hN
    rcases hM with hM | hM <;> simp [mkCompiler, hg, hM]
  · intro hN hMt hMs hP
    refine ⟨?_, by decide⟩
    have hg := langNum_guard_false o.langNum hN
    have hm := str_guard_false o.mainFile hMt hMs
    rcases hP with hP | hP <;> simp [mkCompiler, hg, hm, hP]
  · intro hN hMt hMs hPt hPs hC
    refine ⟨?_, by decide⟩
    have hg := langNum_guard_false o.langNum hN
    have hm := str_guard_false o.mainFile hMt hMs
    have hp := str_guard_false o.pathToFiles hPt hPs
    rcases hC with hC | hC <;> simp [mkCompiler, hg, hm, hp, hC]
  · intro mf pf cn hmf hpf hcn
    have h1 : (mf != "") = true := bne_iff_ne.mpr hmf
    have h2 : (pf != "") = true := bne_iff_ne.mpr hpf
    have h3 : (cn != "") = true := bne_iff_ne.mpr hcn
    simp [mkCompiler, jsTruthy, jsTypeofNumber, jsTypeofString, jsStrictEqZero,
      getNum, getStr, h1, h2, h3]

/-- C9 witness: an options object with every field absent fails on the
first check, naming langNum. -/
theorem C9_witness :
    mkCompiler { langNum := none, mainFile := none, pathToFiles := none,
                 containerName := none, folderName := none }
      = .error "Required param \x27langNum\x27 missing or invalid." :=
  ((C9_construction_validation
    { langNum := none, mainFile := none, pathToFiles := none,
      containerName := none, folderName := none }).1 rfl).1

/-- C10: every done event the monitor emits carries an empty out payload,
on every probe trace and on every single probe from any state; the only
informative payload field is the timedOut boolean. -/
theorem C10_done_payload_out_empty :
    (∀ outs : List String, ((runMonitor outs).2.all doneOutEmpty) = true)
    ∧ (∀ (s : MonState) (out : String), ((monitorStep s out).2.all doneOutEmpty) = true) :=
  ⟨fun outs => runMonitorAux_doneOutEmpty initMonState outs, monitorStep_doneOutEmpty⟩

end CCCompiler
